import Mathlib

/-!
Shallow embedding of the register-field codec and symbolic-access tooling of
the `ic_psd_flow` repository.

Embedded sources:
* `ic_psd2/src/mock_driver.py` — class `MockDriver`: the byte-addressable
  virtual register file (`i2c_mem`), the write trace (`write_log`), the
  register map (`reg_map`), and the operations `read_reg`, `write_reg`,
  `write_bits`, `reg_write`, `reg_read`, `_apply_field_default`.
* `ic_psd3/src/psd_bridge/unified_generator.py` — class `AutoClassGenerator`:
  the source-to-source rewriter `replace_autoclass_calls` and its helpers
  `_get_read_list`, `_get_write_list`, `_get_w_val`, `_mask_to_lsb_bits`,
  `_get_addr12`, `_get_rshift_str`, `_get_register_info`.
* `ic_psd2/src/mock_executor.py` — `MockExecutor.generate_aves_per_function`:
  the per-procedure AVES block renderer.

Conventions:
* Python ints are `Nat` where the source only ever produces non-negative
  values (byte values, masks, addresses) and `Int` where a sign can occur
  (shifts, `write_reg`'s argument, parsed literals in the rewriter).
* Python `x & ~m` on non-negative ints is `pyAndNot x m` (characterised by
  `pyAndNot_testBit` below).
* Python dictionaries whose insertion order matters (`field["masks"]`) are
  association lists; dictionaries used only via `get` become Lean functions
  or association-list lookups.
* A Python `raise` is an `Except.error`; where intermediate mutations may
  have happened before the raise, the error value carries the driver state
  at the moment of the raise.
-/

namespace IcPsd

/-- Python `a & ~b` for non-negative `a`, `b`: clear in `a` every bit set
in `b`. -/
def pyAndNot (a b : Nat) : Nat := a ^^^ (a &&& b)

/-- One field entry of `MockDriver.reg_map` (`mock_driver.py`,
`init_from_xml_state`): the parsed default logical value (`int(default, 0)`,
with the `ValueError` fallback to `0` already applied), the byte-address →
mask pairs in their declaration order, and the byte-address → shift pairs.
The `caption`/`name` strings of the Python dict are bookkeeping that no
operation reads, so they are omitted here. -/
structure FieldInfo where
  default : Nat
  masks : List (Nat × Nat)
  shifts : List (Nat × Int)
deriving DecidableEq, Repr

/-- `shifts.get(addr, 0)` — association-list lookup with default `0`. -/
def lookupShift (shifts : List (Nat × Int)) (addr : Nat) : Int :=
  match shifts.find? (fun p => p.1 = addr) with
  | some p => p.2
  | none => 0

/-- The `MockDriver` state: virtual memory (`i2c_mem.get(key, 0)` is the
total function with default `0`), the append-only write log, the register
map keyed by `(if_name, caption)`, and the `default_bytes` bookkeeping. -/
structure Driver where
  i2c_mem : Nat × Nat → Nat
  write_log : List (Nat × Nat × Nat)
  reg_map : List ((String × String) × FieldInfo)
  default_bytes : String × Nat → Nat

/-- `key not in self.reg_map` test / `self.reg_map[key]` access. -/
def lookupReg (rm : List ((String × String) × FieldInfo))
    (key : String × String) : Option FieldInfo :=
  match rm.find? (fun p => p.1 = key) with
  | some p => some p.2
  | none => none

/-- `MockDriver.read_reg`: `self.i2c_mem.get((addr1, addr2), 0)`. -/
def read_reg (d : Driver) (addr1 addr2 : Nat) : Nat :=
  d.i2c_mem (addr1, addr2)

/-- `MockDriver.write_reg`: mask the value to a byte (`value & 0xFF`, which
for an arbitrary Python int is `value mod 256`), store it, and append a
trace entry. -/
def write_reg (d : Driver) (addr1 addr2 : Nat) (value : Int) : Driver :=
  let b : Nat := (value % 256).toNat
  { d with
    i2c_mem := fun k => if k = (addr1, addr2) then b else d.i2c_mem k
    write_log := d.write_log ++ [(addr1, addr2, b)] }

/-- `MockDriver.write_bits`: read-modify-write,
`new_val = (old_val & ~mask) | (value & mask)` then `write_reg`. -/
def write_bits (d : Driver) (addr1 addr2 : Nat) (mask value : Nat) : Driver :=
  let old_val := read_reg d addr1 addr2
  let new_val := pyAndNot old_val mask ||| (value &&& mask)
  write_reg d addr1 addr2 (new_val : Int)

/-- `n.bit_length()` for a non-negative Python int:
`0` for `0`, otherwise `bit_length (n // 2) + 1`.  The first argument is
structural-recursion fuel; `n` itself is always enough of it. -/
def bitLengthAux : Nat → Nat → Nat
  | 0, _ => 0
  | fuel + 1, n => if n = 0 then 0 else bitLengthAux fuel (n / 2) + 1

/-- Python `n.bit_length()` for a non-negative `n`. -/
def bitLength (n : Nat) : Nat := bitLengthAux n n

/-- Python `mask & -mask` for a non-negative `mask`, computed in a
two's-complement window wide enough to hold `mask`: the lowest set bit
(and `0` for `mask = 0`). -/
def lowBit (m : Nat) : Nat := m &&& (2 ^ bitLength m - m)

/-- `(mask & -mask).bit_length() - 1` from `MockDriver.reg_write`;
`-1` when the mask is zero. -/
def maskLsbPos (m : Nat) : Int := (bitLength (lowBit m) : Int) - 1

/-- The per-byte value computation of `MockDriver.reg_write`:
`((value >> -shift) << mask_lsb_pos) & mask` for a negative shift and
`((value << shift) << mask_lsb_pos) & mask` otherwise.  A zero mask makes
`mask_lsb_pos = -1` and the Python `<< -1` raises
`ValueError: negative shift count`. -/
def regWriteBits (value : Nat) (shift : Int) (mask : Nat) :
    Except String Nat :=
  let lsb := maskLsbPos mask
  let base : Nat :=
    if shift < 0 then value >>> shift.natAbs else value <<< shift.toNat
  if lsb < 0 then .error "negative shift count"
  else .ok ((base <<< lsb.toNat) &&& mask)

/-- The Python exception message of `reg_write`/`reg_read` for an absent
`(if_name, reg_name)` key. -/
def unknownRegMsg (if_name reg_name : String) : String :=
  "Unknown register: " ++ if_name ++ "." ++ reg_name

/-- The loop of `MockDriver.reg_write` over `field["masks"].items()` in
declaration order.  An error raised mid-loop carries the driver state at
the raise (earlier bytes stay written). -/
def regWriteLoop (d : Driver) (shifts : List (Nat × Int)) (value : Nat) :
    List (Nat × Nat) → Except (String × Driver) Driver
  | [] => .ok d
  | (addr, mask) :: rest =>
    let shift := lookupShift shifts addr
    match regWriteBits value shift mask with
    | .error e => .error (e, d)
    | .ok bits_to_write =>
      let addr1 := (addr >>> 8) &&& 0xFF
      let addr2 := addr &&& 0xFF
      regWriteLoop (write_bits d addr1 addr2 mask bits_to_write)
        shifts value rest

/-- `MockDriver.reg_write`: resolve the register (raising
`Unknown register` before any byte is modified if absent), then perform a
masked read-modify-write per declared byte. -/
def reg_write (d : Driver) (if_name reg_name : String) (value : Nat) :
    Except (String × Driver) Driver :=
  match lookupReg d.reg_map (if_name, reg_name) with
  | none => .error (unknownRegMsg if_name reg_name, d)
  | some field => regWriteLoop d field.shifts value field.masks

/-- `MockDriver.reg_read`: resolve the register, then OR together the
decoded contribution `(byte & mask) << -shift` (negative shift) or
`(byte & mask) >> shift` of every declared byte. -/
def reg_read (d : Driver) (if_name reg_name : String) :
    Except String Nat :=
  match lookupReg d.reg_map (if_name, reg_name) with
  | none => .error (unknownRegMsg if_name reg_name)
  | some field =>
    .ok (field.masks.foldl
      (fun result am =>
        let shift := lookupShift field.shifts am.1
        let addr1 := (am.1 >>> 8) &&& 0xFF
        let addr2 := am.1 &&& 0xFF
        let field_val := read_reg d addr1 addr2 &&& am.2
        result |||
          (if shift < 0 then field_val <<< shift.natAbs
           else field_val >>> shift.toNat))
      0)

/-- `MockDriver._apply_field_default`: for every declared byte of the
field, OR-merge `(default >> -shift) & mask` / `(default << shift) & mask`
into the cell (after clearing the mask bits) and mirror the resulting byte
into `default_bytes`. -/
def apply_field_default (d : Driver) (if_name : String) (field : FieldInfo) :
    Driver :=
  field.masks.foldl
    (fun d am =>
      let (addr, mask) := am
      let shift := lookupShift field.shifts addr
      let byte_contrib :=
        if shift < 0 then (field.default >>> shift.natAbs) &&& mask
        else (field.default <<< shift.toNat) &&& mask
      let addr1 := (addr >>> 8) &&& 0xFF
      let addr2 := addr &&& 0xFF
      let current_val := d.i2c_mem (addr1, addr2)
      let newByte := pyAndNot current_val mask ||| byte_contrib
      { d with
        i2c_mem := fun k => if k = (addr1, addr2) then newByte else d.i2c_mem k
        default_bytes := fun k =>
          if k = (if_name, addr) then newByte else d.default_bytes k })
    d

/-- A driver with empty memory, log and map (`MockDriver.__init__`). -/
def mkDriver (rm : List ((String × String) × FieldInfo)) : Driver :=
  { i2c_mem := fun _ => 0
    write_log := []
    reg_map := rm
    default_bytes := fun _ => 0 }

/-- Driver state regardless of whether `reg_write` raised: on a raise the
Python object keeps the partially-updated state carried by the error. -/
def outState : Except (String × Driver) Driver → Driver
  | .ok d => d
  | .error (_, d) => d

/-! ## `AutoClassGenerator` (`ic_psd3/src/psd_bridge/unified_generator.py`)

The source-to-source rewriter.  `replace_autoclass_calls` reads the file
into `lines`, rewrites each line through the regex
`AutoClass\.(?P<page>\w+)\.(?P<reg>\w+)\.(?P<op>r|w)\(\s*(?P<args>[^)]*)\)`,
and writes the result back; the pure line-list transformation is embedded
here.  A Python exception escaping the loop (a `ValueError` from `int()`
on malformed numeric text) aborts the rewrite, hence the `Except`. -/

/-- Python `\s` (ASCII range, as in the machine-generated sources). -/
def isPySpace (c : Char) : Bool :=
  c = ' ' || c = '\t' || c = '\n' || c = '\r' || c = '\x0b' || c = '\x0c'

/-- Python `\w` (ASCII range: letters, digits, underscore). -/
def isWordChar (c : Char) : Bool := c.isAlphanum || c = '_'

/-- Python `str.strip()`: drop leading and trailing whitespace. -/
def pyStrip (s : String) : String :=
  String.mk (((s.data.dropWhile isPySpace).reverse.dropWhile isPySpace).reverse)

/-- Match a literal character sequence, returning the rest on success. -/
def expectLit : List Char → List Char → Option (List Char)
  | [], cs => some cs
  | _ :: _, [] => none
  | p :: ps, c :: cs => if c = p then expectLit ps cs else none

/-- Value of a decimal digit (by character code: `'0'`–`'9'` are 48–57). -/
def decDigitVal (c : Char) : Option Nat :=
  let n := c.toNat
  if 48 ≤ n && n ≤ 57 then some (n - 48) else none

/-- Value of a hexadecimal digit (codes 48–57 are `0`–`9`, 97–102 are
`a`–`f`, 65–70 are `A`–`F`). -/
def hexDigitVal (c : Char) : Option Nat :=
  let n := c.toNat
  if 48 ≤ n && n ≤ 57 then some (n - 48)
  else if 97 ≤ n && n ≤ 102 then some (n - 87)
  else if 65 ≤ n && n ≤ 70 then some (n - 55)
  else none

/-- Accumulate a non-empty digit run in the given base. -/
def digitsVal (digitVal : Char → Option Nat) (base : Nat) :
    List Char → Option Nat
  | [] => none
  | cs =>
    cs.foldl
      (fun acc c =>
        match acc, digitVal c with
        | some n, some d => some (n * base + d)
        | _, _ => none)
      (some 0)

/-- Python `int(s)`: optional surrounding whitespace, optional sign, a
non-empty decimal digit run (digit-group underscores are not modelled:
they do not occur in the rewritten sources). -/
def pyIntDec (s : String) : Except String Int :=
  let cs := (s.data.dropWhile isPySpace).reverse.dropWhile isPySpace |>.reverse
  let signed : Bool × List Char :=
    match cs with
    | '-' :: rest => (true, rest)
    | '+' :: rest => (false, rest)
    | rest => (false, rest)
  match digitsVal decDigitVal 10 signed.2 with
  | some n => .ok (if signed.1 then -(n : Int) else (n : Int))
  | none => .error ("invalid literal for int() with base 10: " ++ s)

/-- Python `int(s, 16)`: optional surrounding whitespace, optional sign,
optional `0x`/`0X`, a non-empty hexadecimal digit run. -/
def pyIntHex (s : String) : Except String Int :=
  let cs := (s.data.dropWhile isPySpace).reverse.dropWhile isPySpace |>.reverse
  let signed : Bool × List Char :=
    match cs with
    | '-' :: rest => (true, rest)
    | '+' :: rest => (false, rest)
    | rest => (false, rest)
  let body :=
    match signed.2 with
    | '0' :: 'x' :: rest => rest
    | '0' :: 'X' :: rest => rest
    | rest => rest
  match digitsVal hexDigitVal 16 body with
  | some n => .ok (if signed.1 then -(n : Int) else (n : Int))
  | none => .error ("invalid literal for int() with base 16: " ++ s)

/-- Upper-case hexadecimal digit character (code 48 is `'0'`, 55 + 10 is
`'A'`). -/
def hexDigitChar (n : Nat) : Char :=
  Char.ofNat (if n < 10 then 48 + n else 55 + n)

/-- Hex digits of `n`, most significant first (fuel-driven; `n` is enough
fuel, and `0` yields no digit). -/
def hexDigitsAux : Nat → Nat → List Char
  | 0, _ => []
  | fuel + 1, n =>
    if n = 0 then [] else hexDigitsAux fuel (n / 16) ++ [hexDigitChar (n % 16)]

/-- Python `f"{n:0wX}"` for a non-negative `n`: upper-case hex, left-padded
with zeros to `w` characters. -/
def pyFormatHex (w : Nat) (n : Nat) : String :=
  let ds := if n = 0 then ['0'] else hexDigitsAux n n
  String.mk (List.replicate (w - ds.length) '0' ++ ds)

/-- One regex match of the symbolic-access pattern: the named groups
`page`, `reg`, `op` (`'r'` or `'w'`) and `args`. -/
structure CallMatch where
  page : String
  reg : String
  op : Char
  args : String
deriving DecidableEq, Repr

/-- Attempt the pattern
`AutoClass\.(\w+)\.(\w+)\.(r|w)\(\s*([^)]*)\)` anchored at the head of the
character list.  The greedy `\w+` groups are maximal runs (backtracking to
a shorter run cannot help, since `\w` excludes the delimiters that must
follow), and `\s*` followed by `[^)]*\)` reads everything up to the first
`)`. -/
def matchCallAt (cs : List Char) : Option CallMatch :=
  match expectLit "AutoClass.".data cs with
  | none => none
  | some r1 =>
    let pw := r1.takeWhile isWordChar
    let r2 := r1.dropWhile isWordChar
    if pw = [] then none
    else
      match r2 with
      | '.' :: r3 =>
        let rw := r3.takeWhile isWordChar
        let r4 := r3.dropWhile isWordChar
        if rw = [] then none
        else
          match r4 with
          | '.' :: opc :: '(' :: r5 =>
            if opc = 'r' || opc = 'w' then
              let r6 := r5.dropWhile isPySpace
              let argcs := r6.takeWhile (fun c => c ≠ ')')
              match r6.dropWhile (fun c => c ≠ ')') with
              | ')' :: _ => some ⟨String.mk pw, String.mk rw, opc, String.mk argcs⟩
              | _ => none
            else none
          | _ => none
      | _ => none

/-- Leftmost regex match: try each start position from the left
(`re.Pattern.search`). -/
def findCallAux : List Char → Option CallMatch
  | [] => none
  | c :: t =>
    match matchCallAt (c :: t) with
    | some m => some m
    | none => findCallAux t

/-- `pattern.search(line)` for the symbolic-access pattern. -/
def findCall (line : String) : Option CallMatch := findCallAux line.data

/-- One entry of `page_reg_map[page][reg]` — the per-byte register record
built by `_build_json_data`.  Only the fields the rewriter reads are kept
(`byte_address`, `byte_mask`, `byte_shift`, all stored as the original
strings); the descriptive fields (`field_name`, `description`, ...) are
never read by `replace_autoclass_calls`. -/
structure RegInfo where
  byte_address : String
  byte_mask : String
  byte_shift : String
deriving DecidableEq, Repr

/-- The `AutoClassGenerator` state used by the rewriter: the configured
instance name and the two-level `page_reg_map` (page → register name →
list of per-byte records). -/
structure AutoGen where
  class_instance_name : String
  page_reg_map : List (String × List (String × List RegInfo))
deriving Repr

/-- `_get_register_info`: `page_reg_map.get(page)`, with Python's falsy
test treating a missing page and an empty page dict alike, then
`page_dict.get(reg_name)`. -/
def getRegisterInfo (g : AutoGen) (page reg : String) :
    Option (List RegInfo) :=
  match g.page_reg_map.find? (fun p => p.1 = page) with
  | none => none
  | some pd =>
    if pd.2 = [] then none
    else
      match pd.2.find? (fun p => p.1 = reg) with
      | none => none
      | some rd => some rd.2

/-- `_get_addr12`: split the 16-bit byte address into the rendered
`0xHH` page/offset literals. -/
def get_addr12 (addr_str : String) : Except String (String × String) := do
  let a ← pyIntHex addr_str
  let addr1 := (Int.land (a >>> (8 : Int)) 0xFF).toNat
  let addr2 := (Int.land a 0xFF).toNat
  pure ("0x" ++ pyFormatHex 2 addr1, "0x" ++ pyFormatHex 2 addr2)

/-- `_get_rshift_str`: render the read-side shift suffix. -/
def get_rshift_str (byte_shift : String) : Except String String := do
  let shift ← pyIntDec byte_shift
  if shift = 0 then pure ""
  else if shift < 0 then pure (" << " ++ toString (-shift))
  else pure (" >> " ++ toString shift)

/-- `_get_read_cmd`: render one per-byte read sub-expression. -/
def get_read_cmd (g : AutoGen) (ri : RegInfo) : Except String String := do
  let a12 ← get_addr12 ri.byte_address
  let byte_mask_str := if ri.byte_mask = "0xFF" then "" else " & " ++ ri.byte_mask
  let shift_str ← get_rshift_str ri.byte_shift
  pure ("(" ++ g.class_instance_name ++ ".read_reg(" ++ a12.1 ++ ", " ++ a12.2
    ++ ")" ++ byte_mask_str ++ ")" ++ shift_str)

/-- `_get_read_list`: an unknown (page, register) pair yields the single
inline `# ERROR` marker line; one register yields a single assignment;
several registers OR the per-byte reads together. -/
def get_read_list (g : AutoGen) (page reg : String) :
    Except String (List String) :=
  match getRegisterInfo g page reg with
  | some (ri :: ris) =>
    match ris with
    | [] => do
      let c ← get_read_cmd g ri
      pure ["rb_" ++ reg ++ " = " ++ c]
    | _ => do
      let cmds ← (ri :: ris).mapM (fun r => do
        let c ← get_read_cmd g r
        pure ("rb_" ++ reg ++ " |= " ++ c))
      pure (("rb_" ++ reg ++ " = 0") :: cmds)
  | _ => .ok ["# ERROR: " ++ page ++ "." ++ reg ++ " not found"]

/-- The consecutive-ones count loop of `_mask_to_lsb_bits`
(`while shifted & 1: bits += 1; shifted >>= 1`), fuel-driven. -/
def onesRunAux : Nat → Nat → Nat
  | 0, _ => 0
  | fuel + 1, x => if x % 2 = 1 then onesRunAux fuel (x / 2) + 1 else 0

/-- `_mask_to_lsb_bits`: LSB position and contiguous width of a mask
(masks in the register model are non-negative hex literals, so the parsed
value is used as a `Nat`). -/
def mask_to_lsb_bits (mask : String) : Except String (Nat × Nat) := do
  let mi ← pyIntHex mask
  let m := mi.toNat
  if m = 0 then pure (0, 0)
  else
    let lsb := bitLength (lowBit m) - 1
    let shifted := m >>> lsb
    pure (lsb, onesRunAux shifted shifted)

/-- `_get_w_val`: precompute the byte contribution of a literal write
value (never reporting a value that exceeds the field width — the mask
silently truncates). -/
def get_w_val (shift mask w_str : String) : Except String Int := do
  let w ←
    if (expectLit "0x".data w_str.data).isSome
        || (expectLit "0X".data w_str.data).isSome then
      pyIntHex w_str
    else pyIntDec w_str
  let shift_num ← pyIntDec shift
  let mask_num ← pyIntHex mask
  if shift_num = 0 then pure (Int.land w mask_num)
  else if shift_num < 0 then pure (Int.land (w >>> (-shift_num)) mask_num)
  else pure (Int.land (w <<< shift_num) mask_num >>> shift_num)

/-- `_get_write_cmd`: render one per-byte `write_bits` call. -/
def get_write_cmd (g : AutoGen) (ri : RegInfo) (value_var : String) :
    Except String String := do
  let a12 ← get_addr12 ri.byte_address
  let lb ← mask_to_lsb_bits ri.byte_mask
  let wv ← get_w_val ri.byte_shift ri.byte_mask value_var
  pure (g.class_instance_name ++ ".write_bits(" ++ a12.1 ++ ", " ++ a12.2
    ++ ", " ++ toString lb.1 ++ ", " ++ toString lb.2 ++ ", " ++ toString wv ++ ")")

/-- `_get_write_list`: an unknown (page, register) pair yields the single
inline `# ERROR` marker line (before any numeric parsing of the argument);
otherwise a comment line followed by one `write_bits` call per byte. -/
def get_write_list (g : AutoGen) (page reg value_var : String) :
    Except String (List String) :=
  match getRegisterInfo g page reg with
  | some (ri :: ris) => do
    let cmds ← (ri :: ris).mapM (fun r => get_write_cmd g r value_var)
    pure (("# w " ++ page ++ ":" ++ reg ++ " <- " ++ value_var) :: cmds)
  | _ => .ok ["# ERROR: " ++ page ++ "." ++ reg ++ " not found"]

/-- The per-line body of the `replace_autoclass_calls` loop: a line
without a match is kept as-is; a matching line is replaced by the
generated command lines, each prefixed with the line's leading whitespace
and terminated by a newline. -/
def processLine (g : AutoGen) (line : String) : Except String (List String) :=
  match findCall line with
  | none => .ok [line]
  | some m =>
    let indent := String.mk (line.data.takeWhile isPySpace)
    let args := pyStrip m.args
    let cmdsE :=
      if m.op = 'r' then get_read_list g m.page m.reg
      else get_write_list g m.page m.reg (if args = "" then "0" else args)
    match cmdsE with
    | .error e => .error e
    | .ok cmds => .ok (cmds.map (fun c => indent ++ c ++ "\n"))

/-- `AutoClassGenerator.replace_autoclass_calls`, as the pure
transformation on the list of input lines (file I/O and the backup copy
aside). -/
def replace_autoclass_calls (g : AutoGen) :
    List String → Except String (List String)
  | [] => .ok []
  | line :: rest =>
    match processLine g line with
    | .error e => .error e
    | .ok new_lines =>
      match replace_autoclass_calls g rest with
      | .error e => .error e
      | .ok rest' => .ok (new_lines ++ rest')

/-! ## `MockExecutor.generate_aves_per_function`
(`ic_psd2/src/mock_executor.py`)

The execution of each top-level procedure (which happens through Python
`exec` against the `MockDriver`) is abstracted as the write log and the
extracted `AutoClass` call strings it produces; the block-rendering loop
over the procedures is embedded from the source. -/

/-- One executed top-level function: its name, the write log captured from
the driver after calling it, and its extracted `AutoClass` call lines. -/
structure FuncRun where
  name : String
  log : List (Nat × Nat × Nat)
  calls : List String
deriving DecidableEq, Repr

/-- Python `f"{n:02d}"` for a non-negative `n`. -/
def pad2 (n : Nat) : String :=
  let s := toString n
  if s.length < 2 then "0" ++ s else s

/-- One `B0 AAAA VV;` write line of a per-function AVES block. -/
def avesWriteLine (e : Nat × Nat × Nat) : String :=
  let addr := (e.1 <<< 8) ||| e.2.1
  "B0 " ++ pyFormatHex 4 addr ++ " " ++ pyFormatHex 2 e.2.2 ++ ";"

/-- The lines emitted for one function with a non-empty write log: header,
optional `AutoClass` comment lines, the write lines, `End`, blank
separator. -/
def avesFuncBlock (func_index_start sub_index : Nat) (f : FuncRun) :
    List String :=
  (":" ++ pad2 func_index_start ++ "-" ++ pad2 sub_index ++ " " ++ f.name ++ ":")
  :: ((if f.calls = [] then []
       else "; AutoClass commands:" :: f.calls.map (fun c => ";   " ++ c))
      ++ f.log.map avesWriteLine ++ ["End", ""])

/-- The per-function loop of `generate_aves_per_function`: a function with
an empty write log emits nothing and does not advance `sub_index`. -/
def genAvesBlocksAux (func_index_start : Nat) :
    Nat → List FuncRun → List String
  | _, [] => []
  | sub_index, f :: fs =>
    if f.log = [] then genAvesBlocksAux func_index_start sub_index fs
    else
      avesFuncBlock func_index_start sub_index f
        ++ genAvesBlocksAux func_index_start (sub_index + 1) fs

/-- `MockExecutor.generate_aves_per_function` (the non-empty
`functions` branch), as the list of output lines. -/
def generate_aves_per_function (funcs : List FuncRun)
    (func_index_start : Nat) : List String :=
  genAvesBlocksAux func_index_start 1 funcs

/-! ## Observation helpers and concrete scenarios -/

/-- Whether an `Except` value is a success (no Python exception). -/
def exceptIsOk {ε α : Type _} : Except ε α → Bool
  | .ok _ => true
  | .error _ => false

/-- The `(addr1, addr2)` cell a 16-bit byte address maps to
(`(addr >> 8) & 0xFF`, `addr & 0xFF`). -/
def cellOf (addr : Nat) : Nat × Nat := ((addr >>> 8) &&& 0xFF, addr &&& 0xFF)

/-- Every write-log entry's value is a byte. -/
def logBytes (d : Driver) : Prop := ∀ e ∈ d.write_log, e.2.2 < 256

/-- A symbolic field write immediately followed by a symbolic read of the
same register (`reg_write` then `reg_read`), propagating a raise. -/
def regWriteReadback (d : Driver) (if_name reg_name : String)
    (value : Nat) : Except String Nat :=
  match reg_write d if_name reg_name value with
  | .ok d' => reg_read d' if_name reg_name
  | .error (e, _) => .error e

/-- A field occupying bits 3–5 of byte `0x0600` (mask `0x38`) with shift
`3` and default logical value `3`. -/
def fiRt3 : FieldInfo := ⟨3, [(0x600, 0x38)], [(0x600, 3)]⟩

/-- The same field with shift `0` — the data of spec Example 1. -/
def fiRt0 : FieldInfo := ⟨3, [(0x600, 0x38)], [(0x600, 0)]⟩

/-- Driver whose single register `AG.fld` is `fiRt3`. -/
def dRt3 : Driver := mkDriver [(("AG", "fld"), fiRt3)]

/-- Driver whose single register `AG.fld` is `fiRt0`. -/
def dRt0 : Driver := mkDriver [(("AG", "fld"), fiRt0)]

/-- A 3-bit field in bits 0–2 of byte `0x0601` (mask `0x07`, shift `0`). -/
def fiW3 : FieldInfo := ⟨0, [(0x601, 0x07)], [(0x601, 0)]⟩

/-- Driver whose single register `A.f` is `fiW3`. -/
def dW3 : Driver := mkDriver [(("A", "f"), fiW3)]

/-- The two-byte register of spec Example 3: byte `0x0902` mask `0xFF`
shift `0`, byte `0x0903` mask `0x03` shift `-8`. -/
def fiTwoByte : FieldInfo :=
  ⟨0, [(0x902, 0xFF), (0x903, 0x03)], [(0x902, 0), (0x903, -8)]⟩

/-- Driver whose single register `P.r2` is `fiTwoByte`. -/
def dTwoByte : Driver := mkDriver [(("P", "r2"), fiTwoByte)]

/-- A register whose single declared byte mask is `0x00` (possible in the
tolerant parse of machine-generated definitions). -/
def fiZeroMask : FieldInfo := ⟨0, [(0x600, 0)], []⟩

/-- Driver whose single register `A.z` is `fiZeroMask`. -/
def dZeroMask : Driver := mkDriver [(("A", "z"), fiZeroMask)]

/-- A second register on a different byte (`0x0700`), for isolation
scenarios. -/
def fiIsoB : FieldInfo := ⟨0, [(0x700, 0x38)], [(0x700, 3)]⟩

/-- Driver with two registers on disjoint bytes: `A.fa` on `0x0601` and
`B.fb` on `0x0700`. -/
def dIso : Driver := mkDriver [(("A", "fa"), fiW3), (("B", "fb"), fiIsoB)]

/-- A rewriter whose register model is empty. -/
def gEmpty : AutoGen := ⟨"self.device", []⟩

/-- An executed procedure that produced no writes. -/
def fEmptyRun : FuncRun := ⟨"f", [], []⟩

/-! ## Helper lemmas -/

theorem pyAndNot_testBit (a b i : Nat) :
    (pyAndNot a b).testBit i = (a.testBit i && !(b.testBit i)) := by
  simp only [pyAndNot, Nat.testBit_xor, Nat.testBit_and]
  cases a.testBit i <;> cases b.testBit i <;> rfl

theorem natByte_toNat (x : Nat) : ((x : Int) % 256).toNat = x % 256 := by
  omega

theorem natByte_toNat_of_lt {x : Nat} (h : x < 256) :
    ((x : Int) % 256).toNat = x := by
  omega

theorem ne_End_of_head (s : String) (c : Char) (hc : c ≠ 'E')
    (h : s.data.head? = some c) : s ≠ "End" := by
  intro he
  rw [he] at h
  rw [show ("End" : String).data = ['E', 'n', 'd'] from rfl] at h
  simp at h
  exact hc h.symm

theorem header_ne_End (i s : Nat) (n : String) :
    (":" ++ pad2 i ++ "-" ++ pad2 s ++ " " ++ n ++ ":") ≠ "End" := by
  apply ne_End_of_head _ ':' (by decide)
  simp only [String.data_append, show (":" : String).data = [':'] from rfl]
  simp

theorem comment_ne_End (c : String) : (";   " ++ c) ≠ "End" := by
  apply ne_End_of_head _ ';' (by decide)
  simp only [String.data_append,
    show (";   " : String).data = [';', ' ', ' ', ' '] from rfl]
  simp

theorem writeLine_ne_End (e : Nat × Nat × Nat) : avesWriteLine e ≠ "End" := by
  apply ne_End_of_head _ 'B' (by decide)
  simp only [avesWriteLine, String.data_append,
    show ("B0 " : String).data = ['B', '0', ' '] from rfl]
  simp

theorem count_End_block (i s : Nat) (f : FuncRun) :
    (avesFuncBlock i s f).count "End" = 1 := by
  have hcom : (if f.calls = [] then ([] : List String)
      else "; AutoClass commands:" :: f.calls.map (fun c => ";   " ++ c)).count
        "End" = 0 := by
    apply List.count_eq_zero.mpr
    intro hmem
    by_cases hc : f.calls = []
    · rw [if_pos hc] at hmem
      exact absurd hmem (List.not_mem_nil _)
    · rw [if_neg hc] at hmem
      rcases List.mem_cons.mp hmem with h | h
      · exact absurd h (by decide)
      · rcases List.mem_map.mp h with ⟨c, _, hc2⟩
        exact comment_ne_End c hc2
  have hwr : (f.log.map avesWriteLine).count "End" = 0 := by
    apply List.count_eq_zero.mpr
    intro hmem
    rcases List.mem_map.mp hmem with ⟨e, _, he⟩
    exact writeLine_ne_End e he
  simp only [avesFuncBlock, List.count_cons, List.count_append, hcom, hwr]
  simp [header_ne_End i s f.name]

theorem genAux_filter (i : Nat) :
    ∀ (funcs : List FuncRun) (s : Nat),
      genAvesBlocksAux i s funcs
        = genAvesBlocksAux i s (funcs.filter fun f => !f.log.isEmpty)
  | [], _ => rfl
  | f :: fs, s => by
    by_cases h : f.log = []
    · simp [genAvesBlocksAux, h, List.filter_cons, genAux_filter i fs s]
    · simp only [genAvesBlocksAux, h, if_false, List.filter_cons]
      have hne : f.log.isEmpty = false := by
        cases hl : f.log
        · exact absurd hl h
        · rfl
      simp [hne, genAvesBlocksAux, h, genAux_filter i fs (s + 1)]

theorem genAux_count (i : Nat) :
    ∀ (funcs : List FuncRun) (s : Nat),
      (genAvesBlocksAux i s funcs).count "End"
        = (funcs.filter fun f => !f.log.isEmpty).length
  | [], _ => rfl
  | f :: fs, s => by
    by_cases h : f.log = []
    · simp [genAvesBlocksAux, h, List.filter_cons, genAux_count i fs s]
    · have hne : f.log.isEmpty = false := by
        cases hl : f.log
        · exact absurd hl h
        · rfl
      simp only [genAvesBlocksAux, h, if_false, List.filter_cons, hne,
        List.count_append, count_End_block, genAux_count i fs (s + 1)]
      simp
      omega

/-! ## C1 -/

/-- C1 (code bug): the round-trip law `reg_read ∘ reg_write = id` fails on
the code.  For the field with mask `0x38`, writing the in-width value `3`
and reading it back yields `0` when the declared shift is `3` and `0x18`
when it is `0` — never `3`.  `reg_write` aligns the value to the mask's
LSB position on top of applying the shift, while `reg_read` only undoes
the shift (the asymmetry §9 of the spec warns about). -/
theorem c1_roundtrip_fails : regWriteReadback dRt3 "AG" "fld" 3 = .ok 0
    ∧ regWriteReadback dRt0 "AG" "fld" 3 = .ok 0x18
    ∧ (0 : Nat) ≠ 3 ∧ (0x18 : Nat) ≠ 3 :=
  ⟨rfl, rfl, by decide, by decide⟩

/-! ## C2 -/

/-- C2 (counterexample): seeding from a field at byte `0x0600` with mask
`0x38`, shift `0` and default logical value `0x3` does NOT set the bits
`0x18`: the seeded contribution is `(0x3 << 0) & 0x38 = 0`. -/
theorem c2_counterexample :
    ¬ ((apply_field_default (mkDriver []) "AG" fiRt0).i2c_mem (0x06, 0x00)
        &&& 0x18 = 0x18) := by
  decide

/-- C2 (amended): with shift `0` the seeded cell at `(0x06, 0x00)` is
`0x00`; the byte `0x18` appears exactly when the declared shift is `3`
(`(0x3 << 3) & 0x38 = 0x18`). -/
theorem c2_seeded_byte :
    (apply_field_default (mkDriver []) "AG" fiRt0).i2c_mem (0x06, 0x00) = 0x00
    ∧ (apply_field_default (mkDriver []) "AG" fiRt3).i2c_mem (0x06, 0x00)
        = 0x18 :=
  ⟨rfl, rfl⟩

/-! ## C3 -/

/-- C3 (counterexample): writing the literal `0x9` — which exceeds the
3-bit field `A.f` (mask `0x07`) — raises no error at all: `reg_write`
succeeds and logs the silently truncated byte `0x9 & 0x07 = 0x01`, and the
rewriter's `_get_w_val` likewise returns `1` without reporting anything. -/
theorem c3_counterexample :
    exceptIsOk (reg_write dW3 "A" "f" 9) = true
    ∧ (outState (reg_write dW3 "A" "f" 9)).write_log = [(0x06, 0x01, 0x01)]
    ∧ get_w_val "0" "0x07" "0x9" = .ok 1 :=
  ⟨rfl, rfl, rfl⟩

/-- C3 (amended): there is no range check anywhere: for EVERY value `v`
(in range or not) the write to the 3-bit field succeeds and the logged
byte is the mask-truncated `v &&& 0x07`; the rewriter's precomputed write
value for `0x9` is likewise the truncated `1`, with no error. -/
theorem c3_silent_truncation (v : Nat) :
    reg_write dW3 "A" "f" v = .ok (write_bits dW3 0x06 0x01 0x07 (v &&& 0x07))
    ∧ (outState (reg_write dW3 "A" "f" v)).write_log = [(0x06, 0x01, v &&& 0x07)]
    ∧ get_w_val "0" "0x07" "0x9" = .ok 1 := by
  refine ⟨rfl, ?_, rfl⟩
  have h1 : outState (reg_write dW3 "A" "f" v)
      = write_bits dW3 0x06 0x01 0x07 (v &&& 0x07) := rfl
  rw [h1]
  show [] ++ [(6, 1, ((((pyAndNot (read_reg dW3 6 1) 7)
      ||| ((v &&& 7) &&& 7) : Nat) : Int) % 256).toNat)] = _
  have h2 : pyAndNot (read_reg dW3 6 1) 7 = 0 := rfl
  rw [h2, Nat.zero_or, Nat.and_assoc]
  have h3 : (7 : Nat) &&& 7 = 7 := by decide
  rw [h3]
  have h4 : v &&& 7 ≤ 7 := Nat.and_le_right
  simp [natByte_toNat_of_lt (by omega : v &&& 7 < 256)]

/-! ## C5 -/

/-- C5 (counterexample): writing `0x013` to the two-byte register of
Example 3 does not produce the trace `(0x09,0x02,0x13), (0x09,0x03,0x01)`
claimed by the spec: `0x013 >> 8 = 0`, so the second entry's value is
`0x00`. -/
theorem c5_counterexample :
    (outState (reg_write dTwoByte "P" "r2" 0x13)).write_log
      ≠ [(0x09, 0x02, 0x13), (0x09, 0x03, 0x01)] := by
  decide

/-- C5 (amended): writing `0x013` appends exactly `(0x09,0x02,0x13)` then
`(0x09,0x03,0x00)`, in that order (one entry per byte, lowest-declared
byte first); the spec's expected trace `(0x09,0x02,0x13), (0x09,0x03,0x01)`
is produced by the value `0x113` instead. -/
theorem c5_two_byte_trace :
    (outState (reg_write dTwoByte "P" "r2" 0x13)).write_log
      = [(0x09, 0x02, 0x13), (0x09, 0x03, 0x00)]
    ∧ (outState (reg_write dTwoByte "P" "r2" 0x113)).write_log
      = [(0x09, 0x02, 0x13), (0x09, 0x03, 0x01)] :=
  ⟨rfl, rfl⟩

/-! ## C4 -/

theorem write_bits_mem_other (d : Driver) (a1 a2 m v : Nat) (b1 b2 : Nat)
    (h : (b1, b2) ≠ (a1, a2)) :
    (write_bits d a1 a2 m v).i2c_mem (b1, b2) = d.i2c_mem (b1, b2) := by
  simp [write_bits, write_reg, h]

theorem write_bits_testBit (d : Driver) (a1 a2 m v : Nat)
    (hold : d.i2c_mem (a1, a2) < 256) (i : Nat) (hm : m.testBit i = false) :
    ((write_bits d a1 a2 m v).i2c_mem (a1, a2)).testBit i
      = (d.i2c_mem (a1, a2)).testBit i := by
  have hmem : (write_bits d a1 a2 m v).i2c_mem (a1, a2)
      = (pyAndNot (d.i2c_mem (a1, a2)) m ||| (v &&& m)) % 256 := by
    simp [write_bits, write_reg, read_reg, natByte_toNat]
  rw [hmem]
  by_cases hi : i < 8
  · rw [show (256 : Nat) = 2 ^ 8 from rfl, Nat.testBit_mod_two_pow]
    simp [hi, Nat.testBit_or, pyAndNot_testBit, hm]
  · have h1 : ((pyAndNot (d.i2c_mem (a1, a2)) m ||| (v &&& m)) % 256).testBit i
        = false := by
      apply Nat.testBit_lt_two_pow
      calc (pyAndNot (d.i2c_mem (a1, a2)) m ||| (v &&& m)) % 256
          < 256 := Nat.mod_lt _ (by norm_num)
        _ = 2 ^ 8 := rfl
        _ ≤ 2 ^ i := Nat.pow_le_pow_right (by norm_num) (by omega)
    have h2 : (d.i2c_mem (a1, a2)).testBit i = false := by
      apply Nat.testBit_lt_two_pow
      calc d.i2c_mem (a1, a2) < 256 := hold
        _ = 2 ^ 8 := rfl
        _ ≤ 2 ^ i := Nat.pow_le_pow_right (by norm_num) (by omega)
    rw [h1, h2]

theorem regWriteLoop_reg_map (shifts : List (Nat × Int)) (value : Nat) :
    ∀ (masks : List (Nat × Nat)) (d : Driver),
      (outState (regWriteLoop d shifts value masks)).reg_map = d.reg_map
  | [], _ => rfl
  | (a, m) :: rest, d => by
    rw [regWriteLoop]
    cases hb : regWriteBits value (lookupShift shifts a) m with
    | error e => rfl
    | ok bits => exact regWriteLoop_reg_map shifts value rest _

theorem regWriteLoop_mem_outside (shifts : List (Nat × Int)) (value : Nat) :
    ∀ (masks : List (Nat × Nat)) (d : Driver) (c : Nat × Nat),
      (∀ am ∈ masks, c ≠ cellOf am.1) →
      (outState (regWriteLoop d shifts value masks)).i2c_mem c = d.i2c_mem c
  | [], _, _, _ => rfl
  | (a, m) :: rest, d, c, h => by
    rw [regWriteLoop]
    cases hb : regWriteBits value (lookupShift shifts a) m with
    | error e => rfl
    | ok bits =>
      have hc : c ≠ cellOf a := h (a, m) (List.mem_cons_self _ _)
      have hrest : ∀ am ∈ rest, c ≠ cellOf am.1 :=
        fun am ham => h am (List.mem_cons_of_mem _ ham)
      rw [regWriteLoop_mem_outside shifts value rest _ c hrest]
      exact write_bits_mem_other d _ _ m bits c.1 c.2 (fun he => hc he)

theorem reg_read_fold_congr (d1 d2 : Driver) (shifts : List (Nat × Int)) :
    ∀ (masks : List (Nat × Nat)) (acc : Nat),
      (∀ am ∈ masks, d1.i2c_mem (cellOf am.1) = d2.i2c_mem (cellOf am.1)) →
      masks.foldl
        (fun result am =>
          let shift := lookupShift shifts am.1
          let addr1 := (am.1 >>> 8) &&& 0xFF
          let addr2 := am.1 &&& 0xFF
          let field_val := read_reg d1 addr1 addr2 &&& am.2
          result |||
            (if shift < 0 then field_val <<< shift.natAbs
             else field_val >>> shift.toNat)) acc
      = masks.foldl
        (fun result am =>
          let shift := lookupShift shifts am.1
          let addr1 := (am.1 >>> 8) &&& 0xFF
          let addr2 := am.1 &&& 0xFF
          let field_val := read_reg d2 addr1 addr2 &&& am.2
          result |||
            (if shift < 0 then field_val <<< shift.natAbs
             else field_val >>> shift.toNat)) acc
  | [], _, _ => rfl
  | am :: rest, acc, h => by
    simp only [List.foldl_cons]
    have hr : read_reg d1 ((am.1 >>> 8) &&& 0xFF) (am.1 &&& 0xFF)
        = read_reg d2 ((am.1 >>> 8) &&& 0xFF) (am.1 &&& 0xFF) :=
      h am (List.mem_cons_self _ _)
    rw [hr]
    exact reg_read_fold_congr d1 d2 shifts rest _
      (fun x hx => h x (List.mem_cons_of_mem _ hx))

theorem reg_read_congr (d1 d2 : Driver) (ifn reg : String) (fi : FieldInfo)
    (h1 : lookupReg d1.reg_map (ifn, reg) = some fi)
    (h2 : lookupReg d2.reg_map (ifn, reg) = some fi)
    (hmem : ∀ am ∈ fi.masks,
      d1.i2c_mem (cellOf am.1) = d2.i2c_mem (cellOf am.1)) :
    reg_read d1 ifn reg = reg_read d2 ifn reg := by
  rw [reg_read, reg_read, h1, h2]
  exact congrArg Except.ok (reg_read_fold_congr d1 d2 fi.shifts fi.masks 0 hmem)

/-- C4: `write_bits` changes no other cell and, on the written byte,
preserves every bit outside its mask; consequently a `reg_write` to
register A leaves the `reg_read` of register B unchanged whenever their
declared bytes map to disjoint cells. -/
theorem c4_byte_isolation (d : Driver) (a1 a2 m v : Nat) :
    (∀ b1 b2, (b1, b2) ≠ (a1, a2) →
        (write_bits d a1 a2 m v).i2c_mem (b1, b2) = d.i2c_mem (b1, b2))
    ∧ (d.i2c_mem (a1, a2) < 256 → ∀ i, m.testBit i = false →
        ((write_bits d a1 a2 m v).i2c_mem (a1, a2)).testBit i
          = (d.i2c_mem (a1, a2)).testBit i)
    ∧ (∀ (ifA regA ifB regB : String) (fiA fiB : FieldInfo) (w : Nat),
        lookupReg d.reg_map (ifA, regA) = some fiA →
        lookupReg d.reg_map (ifB, regB) = some fiB →
        (∀ amA ∈ fiA.masks, ∀ amB ∈ fiB.masks, cellOf amA.1 ≠ cellOf amB.1) →
        reg_read (outState (reg_write d ifA regA w)) ifB regB
          = reg_read d ifB regB) := by
  refine ⟨fun b1 b2 h => write_bits_mem_other d a1 a2 m v b1 b2 h,
    fun hold i hm => write_bits_testBit d a1 a2 m v hold i hm, ?_⟩
  intro ifA regA ifB regB fiA fiB w hA hB hdisj
  have hout : outState (reg_write d ifA regA w)
      = outState (regWriteLoop d fiA.shifts w fiA.masks) := by
    rw [reg_write, hA]
  rw [hout]
  apply reg_read_congr _ d ifB regB fiB
  · rw [regWriteLoop_reg_map]
    exact hB
  · exact hB
  · intro am ham
    apply regWriteLoop_mem_outside
    intro amA hamA
    exact (hdisj amA hamA am ham).symm

/-- C4 witness: on the two-register driver `dIso`, a `write_bits` to
`(0x06, 0x01)` leaves `(0x07, 0x00)` and bit 3 of the written byte
untouched, and a field write to `A.fa` leaves the read of `B.fb`
unchanged. -/
theorem c4_witness :
    (write_bits dIso 0x06 0x01 0x07 5).i2c_mem (0x07, 0x00)
      = dIso.i2c_mem (0x07, 0x00)
    ∧ ((write_bits dIso 0x06 0x01 0x07 5).i2c_mem (0x06, 0x01)).testBit 3
        = (dIso.i2c_mem (0x06, 0x01)).testBit 3
    ∧ reg_read (outState (reg_write dIso "A" "fa" 5)) "B" "fb"
        = reg_read dIso "B" "fb" :=
  ⟨(c4_byte_isolation dIso 6 1 7 5).1 7 0 (by decide),
   (c4_byte_isolation dIso 6 1 7 5).2.1 (by decide) 3 (by decide),
   (c4_byte_isolation dIso 6 1 7 5).2.2 "A" "fa" "B" "fb" fiW3 fiIsoB 5 rfl rfl
     (by decide)⟩

/-! ## C10 -/

theorem logBytes_write_reg (d : Driver) (a1 a2 : Nat) (v : Int)
    (h : logBytes d) : logBytes (write_reg d a1 a2 v) := by
  intro e he
  have he2 : e ∈ d.write_log ++ [(a1, a2, (v % 256).toNat)] := he
  rcases List.mem_append.mp he2 with h1 | h1
  · exact h e h1
  · have : e = (a1, a2, (v % 256).toNat) := List.mem_singleton.mp h1
    subst this
    show ((v % 256).toNat) < 256
    omega

theorem logBytes_write_bits (d : Driver) (a1 a2 m w : Nat)
    (h : logBytes d) : logBytes (write_bits d a1 a2 m w) :=
  logBytes_write_reg d a1 a2 _ h

theorem logBytes_regWriteLoop (shifts : List (Nat × Int)) (value : Nat) :
    ∀ (masks : List (Nat × Nat)) (d : Driver), logBytes d →
      logBytes (outState (regWriteLoop d shifts value masks))
  | [], _, h => h
  | (a, m) :: rest, d, h => by
    rw [regWriteLoop]
    cases hb : regWriteBits value (lookupShift shifts a) m with
    | error e => exact h
    | ok bits =>
      exact logBytes_regWriteLoop shifts value rest _
        (logBytes_write_bits d _ _ m bits h)

/-- C10: `write_reg` stores `value mod 256` in the cell and appends the
same byte to the write log; every logged value is below 256, an invariant
preserved by `write_reg`, `write_bits` and `reg_write` (whether or not the
latter raises). -/
theorem c10_write_log_bytes (d : Driver) (a1 a2 : Nat) (v : Int) (m w : Nat)
    (ifn reg : String) (u : Nat) :
    ((write_reg d a1 a2 v).i2c_mem (a1, a2) = (v % 256).toNat
      ∧ (write_reg d a1 a2 v).write_log
          = d.write_log ++ [(a1, a2, (v % 256).toNat)]
      ∧ (v % 256).toNat < 256)
    ∧ (logBytes d →
        logBytes (write_reg d a1 a2 v)
        ∧ logBytes (write_bits d a1 a2 m w)
        ∧ logBytes (outState (reg_write d ifn reg u))) := by
  refine ⟨⟨by simp [write_reg], rfl, by omega⟩,
    fun h => ⟨logBytes_write_reg d a1 a2 v h,
      logBytes_write_bits d a1 a2 m w h, ?_⟩⟩
  rw [reg_write]
  cases hl : lookupReg d.reg_map (ifn, reg) with
  | none => exact h
  | some fi => exact logBytes_regWriteLoop fi.shifts u fi.masks d h

/-- C10 witness: the byte invariant concretely, at an out-of-byte-range
`write_reg` value (`300`), a `write_bits` and a `reg_write` on the empty
driver. -/
theorem c10_witness :
    logBytes (write_reg (mkDriver []) 0 1 300)
    ∧ logBytes (write_bits (mkDriver []) 0 1 7 9)
    ∧ logBytes (outState (reg_write (mkDriver []) "a" "b" 3)) :=
  (c10_write_log_bytes (mkDriver []) 0 1 300 7 9 "a" "b" 3).2
    (by intro e he; simp [mkDriver] at he)

/-! ## C7 -/

theorem bitLengthAux_congr : ∀ (f1 f2 n : Nat), n ≤ f1 → n ≤ f2 →
    bitLengthAux f1 n = bitLengthAux f2 n
  | 0, f2, n, h1, _ => by
    have : n = 0 := by omega
    subst this
    cases f2 with
    | zero => rfl
    | succ f => simp [bitLengthAux]
  | f1 + 1, 0, n, _, h2 => by
    have : n = 0 := by omega
    subst this
    simp [bitLengthAux]
  | f1 + 1, f2 + 1, n, h1, h2 => by
    by_cases hn : n = 0
    · subst hn; simp [bitLengthAux]
    · simp only [bitLengthAux, if_neg hn]
      rw [bitLengthAux_congr f1 f2 (n / 2) (by omega) (by omega)]

theorem bitLength_eq_succ {m : Nat} (h : m ≠ 0) :
    bitLength m = bitLength (m / 2) + 1 := by
  cases m with
  | zero => exact absurd rfl h
  | succ k =>
    show bitLengthAux (k + 1) (k + 1)
      = bitLengthAux ((k + 1) / 2) ((k + 1) / 2) + 1
    rw [show bitLengthAux (k + 1) (k + 1)
        = bitLengthAux k ((k + 1) / 2) + 1 from by simp [bitLengthAux]]
    rw [bitLengthAux_congr k ((k + 1) / 2) ((k + 1) / 2) (by omega) (by omega)]

theorem lt_two_pow_bitLength : ∀ m : Nat, m < 2 ^ bitLength m := by
  intro m
  induction m using Nat.strong_induction_on with
  | _ m ih =>
    by_cases hm : m = 0
    · subst hm; decide
    · rw [bitLength_eq_succ hm]
      have h2 : m / 2 < 2 ^ bitLength (m / 2) := ih (m / 2) (by omega)
      rw [pow_succ]
      omega

theorem bitLength_pos {m : Nat} (h : m ≠ 0) : 0 < bitLength m := by
  rw [bitLength_eq_succ h]
  omega

theorem land_two_mul (a b : Nat) : (2 * a) &&& (2 * b) = 2 * (a &&& b) := by
  apply Nat.eq_of_testBit_eq
  intro i
  cases i with
  | zero =>
    simp [Nat.testBit_zero, Nat.testBit_and, Nat.mul_mod_right]
  | succ j =>
    rw [Nat.testBit_and, Nat.testBit_succ, Nat.testBit_succ, Nat.testBit_succ,
      Nat.mul_div_cancel_left a (by norm_num : 0 < 2),
      Nat.mul_div_cancel_left b (by norm_num : 0 < 2),
      Nat.mul_div_cancel_left (a &&& b) (by norm_num : 0 < 2),
      Nat.testBit_and]

theorem lowBit_ne_zero : ∀ {m : Nat}, m ≠ 0 → lowBit m ≠ 0 := by
  intro m
  induction m using Nat.strong_induction_on with
  | _ m ih =>
    intro hm
    by_cases hodd : m % 2 = 1
    · have hL : 0 < bitLength m := bitLength_pos hm
      have hlt : m < 2 ^ bitLength m := lt_two_pow_bitLength m
      have heven : 2 ^ bitLength m % 2 = 0 := by
        cases hb : bitLength m with
        | zero => omega
        | succ k => simp [pow_succ, Nat.mul_mod_left]
      have hdiff : (2 ^ bitLength m - m) % 2 = 1 := by omega
      intro h0
      have : (lowBit m).testBit 0 = true := by
        rw [lowBit, Nat.testBit_and]
        simp [Nat.testBit_zero, hodd, hdiff]
      rw [h0] at this
      simp [Nat.zero_testBit] at this
    · have hm2 : m = 2 * (m / 2) := by omega
      have hm2ne : m / 2 ≠ 0 := by omega
      have hbl : bitLength m = bitLength (m / 2) + 1 := bitLength_eq_succ hm
      have hle : m / 2 ≤ 2 ^ bitLength (m / 2) :=
        le_of_lt (lt_two_pow_bitLength (m / 2))
      have key : lowBit m = 2 * lowBit (m / 2) := by
        rw [lowBit, lowBit, hbl, pow_succ]
        calc m &&& (2 ^ bitLength (m / 2) * 2 - m)
            = (2 * (m / 2)) &&& (2 * (2 ^ bitLength (m / 2) - m / 2)) := by
              rw [← hm2]
              congr 1
              omega
          _ = 2 * ((m / 2) &&& (2 ^ bitLength (m / 2) - m / 2)) :=
              land_two_mul _ _
      rw [key]
      have := ih (m / 2) (by omega) hm2ne
      omega

theorem maskLsbPos_nonneg {m : Nat} (h : m ≠ 0) : ¬ maskLsbPos m < 0 := by
  rw [maskLsbPos]
  have := bitLength_pos (lowBit_ne_zero h)
  omega

theorem regWriteLoop_isOk (shifts : List (Nat × Int)) (v : Nat) :
    ∀ (masks : List (Nat × Nat)) (d : Driver),
      (∀ am ∈ masks, am.2 ≠ 0) →
      exceptIsOk (regWriteLoop d shifts v masks) = true
  | [], _, _ => rfl
  | (a, m) :: rest, d, h => by
    have hm : m ≠ 0 := h (a, m) (List.mem_cons_self _ _)
    rw [regWriteLoop]
    rw [show regWriteBits v (lookupShift shifts a) m
        = .ok ((((if lookupShift shifts a < 0 then
              v >>> (lookupShift shifts a).natAbs
            else v <<< (lookupShift shifts a).toNat)
          <<< (maskLsbPos m).toNat) &&& m)) from by
      rw [regWriteBits]
      simp [maskLsbPos_nonneg hm]]
    exact regWriteLoop_isOk shifts v rest _
      (fun am ham => h am (List.mem_cons_of_mem _ ham))

/-- C7 (counterexample to "for every present pair, neither raises"): a
register present in the map whose declared byte mask is `0x00` makes
`reg_write` raise — `mask & -mask` has bit length `0`, so the Python
shift amount is `-1` and `<<` raises `ValueError: negative shift count`. -/
theorem c7_counterexample :
    lookupReg dZeroMask.reg_map ("A", "z") ≠ none
    ∧ reg_write dZeroMask "A" "z" 1
        = .error ("negative shift count", dZeroMask) :=
  ⟨by decide, rfl⟩

/-- C7 (amended): an absent (page, register) pair makes both `reg_write`
and `reg_read` raise `Unknown register` with the driver state untouched
(the error is raised before any byte is modified, so the carried state is
the original one); for a present pair `reg_read` never raises, and
`reg_write` never raises provided every declared byte mask is nonzero (a
zero mask raises `negative shift count`, never an unknown-register or
range error). -/
theorem c7_unknown_register (d : Driver) (ifn reg : String) (v : Nat) :
    (lookupReg d.reg_map (ifn, reg) = none →
      reg_write d ifn reg v = .error (unknownRegMsg ifn reg, d)
      ∧ reg_read d ifn reg = .error (unknownRegMsg ifn reg))
    ∧ (∀ fi, lookupReg d.reg_map (ifn, reg) = some fi →
      exceptIsOk (reg_read d ifn reg) = true
      ∧ ((∀ am ∈ fi.masks, am.2 ≠ 0) →
          exceptIsOk (reg_write d ifn reg v) = true)) := by
  constructor
  · intro h
    exact ⟨by rw [reg_write, h], by rw [reg_read, h]⟩
  · intro fi h
    constructor
    · rw [reg_read, h]
      rfl
    · intro hmasks
      rw [reg_write, h]
      exact regWriteLoop_isOk fi.shifts v fi.masks d hmasks

/-- C7 witness: on `dW3`, the absent pair `X.y` raises `Unknown register`
from both operations with the state unchanged, while the present pair
`A.f` (nonzero mask `0x07`) raises from neither. -/
theorem c7_witness :
    (reg_write dW3 "X" "y" 5 = .error (unknownRegMsg "X" "y", dW3)
      ∧ reg_read dW3 "X" "y" = .error (unknownRegMsg "X" "y"))
    ∧ exceptIsOk (reg_read dW3 "A" "f") = true
    ∧ exceptIsOk (reg_write dW3 "A" "f" 5) = true :=
  ⟨(c7_unknown_register dW3 "X" "y" 5).1 rfl,
   ((c7_unknown_register dW3 "A" "f" 5).2 fiW3 rfl).1,
   ((c7_unknown_register dW3 "A" "f" 5).2 fiW3 rfl).2 (by decide)⟩

/-! ## C6 -/

/-- C6 (counterexample): a script whose single procedure produces zero
writes yields NO lines at all from the per-procedure exporter — no empty
block, no diagnostic note — so the number of blocks (0) differs from the
number of procedures (1). -/
theorem c6_counterexample :
    generate_aves_per_function [fEmptyRun] 1 = []
    ∧ (generate_aves_per_function [fEmptyRun] 1).length
        ≠ ([fEmptyRun] : List FuncRun).length :=
  ⟨rfl, by decide⟩

/-- C6 (amended): a procedure producing zero writes emits nothing — the
output equals that of the procedure list with zero-write procedures
filtered out — and the number of emitted blocks (counted by their unique
`End` terminator lines) equals the number of procedures with at least one
write, not the number of procedures. -/
theorem c6_zero_write_blocks (funcs : List FuncRun) (i : Nat) :
    generate_aves_per_function funcs i
      = generate_aves_per_function (funcs.filter fun f => !f.log.isEmpty) i
    ∧ (generate_aves_per_function funcs i).count "End"
      = (funcs.filter fun f => !f.log.isEmpty).length :=
  ⟨genAux_filter i funcs 1, genAux_count i funcs 1⟩

/-! ## C8 -/

/-- C8: whenever the rewrite completes, every input line without a
symbolic-access match is copied to the output byte-for-byte (the very same
string, indentation included) and the relative order of those lines is
preserved: the non-matching lines form a sublist of the output. -/
theorem c8_nonmatching_lines (g : AutoGen) :
    ∀ (lines out : List String),
      replace_autoclass_calls g lines = .ok out →
      (lines.filter (fun l => (findCall l).isNone)).Sublist out
  | [], out, h => by
    rw [replace_autoclass_calls] at h
    cases h
    exact List.Sublist.refl _
  | line :: rest, out, h => by
    rw [replace_autoclass_calls] at h
    cases hp : processLine g line with
    | error e => rw [hp] at h; cases h
    | ok c =>
      rw [hp] at h
      cases hr : replace_autoclass_calls g rest with
      | error e => rw [hr] at h; cases h
      | ok r =>
        rw [hr] at h
        cases h
        have ih := c8_nonmatching_lines g rest r hr
        cases hfc : findCall line with
        | none =>
          have hc : c = [line] := by
            rw [processLine, hfc] at hp
            cases hp
            rfl
          subst hc
          rw [List.filter_cons, if_pos (by simp [hfc])]
          exact ih.cons₂ line
        | some mm =>
          rw [List.filter_cons, if_neg (by simp [hfc])]
          exact ih.trans (List.sublist_append_right c r)

/-- C8 witness: a plain line and a matching line through the empty-model
rewriter — the plain line survives byte-for-byte. -/
theorem c8_witness :
    (["a = 1\n", "  AutoClass.AG.foo.w(0x3)\n"].filter
        (fun l => (findCall l).isNone)).Sublist
      ["a = 1\n", "  # ERROR: AG.foo not found\n"] :=
  c8_nonmatching_lines gEmpty _ _ rfl

/-! ## C9 -/

theorem replace_append_ok (g : AutoGen) :
    ∀ (xs ys : List String) (ox oy : List String),
      replace_autoclass_calls g xs = .ok ox →
      replace_autoclass_calls g ys = .ok oy →
      replace_autoclass_calls g (xs ++ ys) = .ok (ox ++ oy)
  | [], ys, ox, oy, hx, hy => by
    rw [replace_autoclass_calls] at hx
    cases hx
    simpa using hy
  | x :: xs, ys, ox, oy, hx, hy => by
    rw [replace_autoclass_calls] at hx
    rw [List.cons_append, replace_autoclass_calls]
    cases hp : processLine g x with
    | error e => rw [hp] at hx; cases hx
    | ok c =>
      rw [hp] at hx
      cases hr : replace_autoclass_calls g xs with
      | error e => rw [hr] at hx; cases hx
      | ok r =>
        rw [hr] at hx
        cases hx
        rw [replace_append_ok g xs ys r oy hr hy]
        rw [List.append_assoc]

/-- C9: a symbolic access naming a (page, register) pair absent from the
register model neither raises nor aborts the rewrite: the matching line is
replaced, in place, by the single indented inline marker
`# ERROR: <page>.<reg> not found`, and the rest of the file is rewritten
exactly as it would have been on its own. -/
theorem c9_unknown_inline_marker (g : AutoGen) (ls1 ls2 : List String)
    (bad : String) (m : CallMatch) (o1 o2 : List String)
    (hfind : findCall bad = some m)
    (hnone : getRegisterInfo g m.page m.reg = none)
    (h1 : replace_autoclass_calls g ls1 = .ok o1)
    (h2 : replace_autoclass_calls g ls2 = .ok o2) :
    replace_autoclass_calls g (ls1 ++ bad :: ls2)
      = .ok (o1 ++ (String.mk (bad.data.takeWhile isPySpace)
          ++ ("# ERROR: " ++ m.page ++ "." ++ m.reg ++ " not found") ++ "\n")
        :: o2) := by
  have hbad : processLine g bad
      = .ok [String.mk (bad.data.takeWhile isPySpace)
          ++ ("# ERROR: " ++ m.page ++ "." ++ m.reg ++ " not found") ++ "\n"] := by
    rw [processLine, hfind]
    by_cases hop : m.op = 'r'
    · simp [hop, get_read_list, hnone]
    · simp [hop, get_write_list, hnone]
  have hmid : replace_autoclass_calls g (bad :: ls2)
      = .ok ((String.mk (bad.data.takeWhile isPySpace)
          ++ ("# ERROR: " ++ m.page ++ "." ++ m.reg ++ " not found") ++ "\n")
        :: o2) := by
    rw [replace_autoclass_calls, hbad, h2]
    rfl
  exact replace_append_ok g ls1 (bad :: ls2) o1 _ h1 hmid

/-- C9 witness: an unknown access between two plain lines is replaced by
the inline marker while both neighbours are processed normally. -/
theorem c9_witness :
    replace_autoclass_calls gEmpty
        (["x = 1\n"] ++ "  AutoClass.AG.foo.w(0x3)\n" :: ["y = 2\n"])
      = .ok (["x = 1\n"]
          ++ (String.mk (("  AutoClass.AG.foo.w(0x3)\n" : String).data.takeWhile
                isPySpace)
              ++ ("# ERROR: " ++ "AG" ++ "." ++ "foo" ++ " not found") ++ "\n")
            :: ["y = 2\n"]) :=
  c9_unknown_inline_marker gEmpty ["x = 1\n"] ["y = 2\n"]
    "  AutoClass.AG.foo.w(0x3)\n" ⟨"AG", "foo", 'w', "0x3"⟩
    ["x = 1\n"] ["y = 2\n"] rfl rfl rfl rfl

end IcPsd
